import Mathlib

/-!
Verification of the notice data model and comparison engine of
`pytest_typing_runner/expectations.py`.

Python values are shallowly embedded as follows:
* `pathlib.Path` values become lists of path components (`List String`);
  `Path.is_relative_to` is component-prefix testing and `Path.relative_to`
  drops the prefix components.
* Python `dict`s become association lists with unique keys in insertion
  order; `d[k]` is `alookup`, `{**d, k: v}` is `dictSet` (replace in place
  or append), and `defaultdict` extension is modelled by the `bucketExtend`
  and `tableExtend` operations below.
* `str | int` line addresses become `String ⊕ Nat`, fallible operations
  (Python `raise ValueError`) return `Except String`.
* Python truthiness is modelled explicitly: a dataclass instance that
  defines neither `__bool__` nor `__len__` is always truthy, which is
  captured by the `pyBool` functions.
-/

/-- `str.split` of a Python message string on the newline character,
modelled on the character list of the string (Python strings are character
sequences); the result always has at least one element. -/
def splitLines (s : String) : List String :=
  (s.toList.splitOn '\n').map List.asString

/-- `ProgramNotice`: a single notice from the static type checker. -/
structure ProgramNotice where
  location : List String
  line_number : Nat
  col : Option Nat
  severity : String
  tag : Option String
  msg : String
deriving DecidableEq, Repr

/-- `ProgramNotice.for_compare`: one pseudo-notice per line of `msg`. -/
def ProgramNotice.for_compare (self : ProgramNotice) : List ProgramNotice :=
  (splitLines self.msg).map (fun line => { self with msg := line })

/-- `ProgramNotice.matches`: all of location, line_number, severity, tag and
msg must be identical; then, if either side provides a column, the two
column values are compared with `==` (`None == value` is `False`). -/
def ProgramNotice.matches (self other : ProgramNotice) : Bool :=
  let same : Bool :=
    decide (self.location = other.location) &&
    decide (self.line_number = other.line_number) &&
    decide (self.severity = other.severity) &&
    decide (self.tag = other.tag) &&
    decide (self.msg = other.msg)
  if !same then false
  else if self.col.isSome || other.col.isSome then decide (self.col = other.col)
  else true

/-- `LineNotices`: the ordered notices for one line of one file. -/
structure LineNotices where
  location : List String
  line_number : Nat
  notices : List ProgramNotice
deriving DecidableEq, Repr

/-- Python truth value of a `LineNotices` dataclass instance: the class
defines neither `__bool__` nor `__len__`, so it is always truthy, even when
its `notices` sequence is empty. -/
def LineNotices.pyBool (_self : LineNotices) : Bool := true

/-- `LineNotices.has_notices`: `bool(self.notices)`, list truthiness. -/
def LineNotices.has_notices (self : LineNotices) : Bool :=
  !self.notices.isEmpty

/-- `LineNotices.add`: append one notice. -/
def LineNotices.add (self : LineNotices) (notice : ProgramNotice) : LineNotices :=
  { self with notices := self.notices ++ [notice] }

/-- The loop body of `LineNotices.replace`: `matched` is the mutable flag of
the Python loop. -/
def replaceLoop (chooser : ProgramNotice → Bool) (replaced : ProgramNotice)
    (first_only : Bool) : List ProgramNotice → Bool → List ProgramNotice
  | [], _ => []
  | n :: rest, matched =>
    if chooser n && (!first_only || !matched) then
      replaced :: replaceLoop chooser replaced first_only rest true
    else
      n :: replaceLoop chooser replaced first_only rest matched

/-- `LineNotices.replace`: substitute `replaced` for chosen notices, only the
first chosen one when `first_only`. -/
def LineNotices.replace (self : LineNotices) (chooser : ProgramNotice → Bool)
    (replaced : ProgramNotice) (first_only : Bool) : LineNotices :=
  { self with notices := replaceLoop chooser replaced first_only self.notices false }

/-- `LineNotices.remove`: drop every chosen notice. -/
def LineNotices.remove (self : LineNotices) (chooser : ProgramNotice → Bool) : LineNotices :=
  { self with notices := self.notices.filter (fun n => !chooser n) }

/-- Python `dict` lookup on an association list. -/
def alookup {κ : Type} {α : Type} [DecidableEq κ] : List (κ × α) → κ → Option α
  | [], _ => none
  | (k', v) :: rest, k => if k' = k then some v else alookup rest k

/-- Python `{**d, k: v}`: replace the value at an existing key in place, or
append a new key. -/
def dictSet {κ : Type} {α : Type} [DecidableEq κ] : List (κ × α) → κ → α → List (κ × α)
  | [], k, v => [(k, v)]
  | (k', v') :: rest, k, v =>
    if k' = k then (k, v) :: rest else (k', v') :: dictSet rest k v

/-- `FileNotices`: per-file map from line number to `LineNotices`, plus the
symbolic-name alias table. -/
structure FileNotices where
  location : List String
  by_line_number : List (Nat × LineNotices)
  name_to_line_number : List (String × Nat)
deriving DecidableEq, Repr

/-- Python truth value of a `FileNotices` dataclass instance: always truthy
(no `__bool__` or `__len__` hook). -/
def FileNotices.pyBool (_self : FileNotices) : Bool := true

/-- `FileNotices.has_notices`: `any(notices for notices in
self.by_line_number.values())`, where each value is a `LineNotices`
dataclass instance and hence always truthy. -/
def FileNotices.has_notices (self : FileNotices) : Bool :=
  (self.by_line_number.map Prod.snd).any LineNotices.pyBool

/-- Bool-valued comparison used to model Python `sorted` on line numbers. -/
def lineLe (a b : Nat × LineNotices) : Bool := decide (a.1 ≤ b.1)

/-- Insert into a list sorted by `le` (used to model Python `sorted`). -/
def orderedInsertB {α : Type} (le : α → α → Bool) (a : α) : List α → List α
  | [] => [a]
  | b :: l => if le a b then a :: b :: l else b :: orderedInsertB le a l

/-- Insertion sort with a Bool-valued comparison (models Python `sorted`). -/
def insertionSortB {α : Type} (le : α → α → Bool) : List α → List α
  | [] => []
  | a :: l => orderedInsertB le a (insertionSortB le l)

/-- `FileNotices.__iter__`: lines in sorted order, notices in stored order. -/
def FileNotices.iterNotices (self : FileNotices) : List ProgramNotice :=
  ((insertionSortB lineLe self.by_line_number).map Prod.snd).flatMap LineNotices.notices

/-- `FileNotices.notices_for_line_number`. -/
def FileNotices.notices_for_line_number (self : FileNotices) (line_number : Nat) :
    Option LineNotices :=
  alookup self.by_line_number line_number

/-- `FileNotices.set_line_notices`. -/
def FileNotices.set_line_notices (self : FileNotices) (line_number : Nat)
    (notices : LineNotices) : FileNotices :=
  { self with by_line_number := dictSet self.by_line_number line_number notices }

/-- Resolution of a `str | int` line address (the `isinstance` branch at the
top of `find_for_name_or_line`). -/
def resolveLine (self : FileNotices) (name_or_line : String ⊕ Nat) : Except String Nat :=
  match name_or_line with
  | Sum.inr line => Except.ok line
  | Sum.inl name =>
    match alookup self.name_to_line_number name with
    | none => Except.error "No named line"
    | some line => Except.ok line

/-- The reverse scan of `find_for_name_or_line`, applied to the reversed
notice list: with no severity the first notice scanned is taken, otherwise
the first one whose severity matches. -/
def scanFound : List ProgramNotice → Option String → Option ProgramNotice
  | [], _ => none
  | n :: _, none => some n
  | n :: rest, some s => if n.severity = s then some n else scanFound rest (some s)

/-- `FileNotices.find_for_name_or_line`. -/
def FileNotices.find_for_name_or_line (self : FileNotices)
    (name_or_line : String ⊕ Nat) (severity : Option String) (must_exist : Bool) :
    Except String (Nat × LineNotices × Option ProgramNotice) :=
  match resolveLine self name_or_line with
  | Except.error e => Except.error e
  | Except.ok line_number =>
    match self.notices_for_line_number line_number with
    | none =>
      if must_exist then Except.error "No existing notices for named line"
      else Except.ok (line_number, ⟨self.location, line_number, []⟩, none)
    | some notices =>
      let found := scanFound notices.notices.reverse severity
      if must_exist && found.isNone then
        Except.error "Found no existing notice for named line or severity"
      else
        Except.ok (line_number, notices, found)

/-- `FileNotices.change_reveal`: find the most recent note-severity notice
(fatal if none) and substitute `modify` of it via content matching. -/
def FileNotices.change_reveal (self : FileNotices) (name_or_line : String ⊕ Nat)
    (modify : ProgramNotice → ProgramNotice) : Except String FileNotices :=
  match self.find_for_name_or_line name_or_line (some "note") true with
  | Except.error e => Except.error e
  | Except.ok (line_number, notices, existing) =>
    match existing with
    | none => Except.error "Found no existing notice for named line or severity"
    | some e =>
      Except.ok (self.set_line_notices line_number
        (notices.replace (fun original => original.matches e) (modify e) true))

/-- `FileNotices.add_reveal`: coalesce onto an existing note via
`change_reveal` when the unrestricted lookup finds any notice, otherwise
create a new note-severity notice. -/
def FileNotices.add_reveal (self : FileNotices) (name_or_line : String ⊕ Nat)
    (revealed : String) : Except String FileNotices :=
  match self.find_for_name_or_line name_or_line none false with
  | Except.error e => Except.error e
  | Except.ok (line_number, notices, existing) =>
    match existing with
    | some _ =>
      self.change_reveal name_or_line (fun original =>
        { original with msg := original.msg ++ "\nRevealed type is \"" ++ revealed ++ "\"" })
    | none =>
      Except.ok (self.set_line_notices line_number (notices.add
        { location := self.location, line_number := line_number, col := none,
          tag := none, severity := "note",
          msg := "Revealed type is \"" ++ revealed ++ "\"" }))

/-- `FileNotices.add_error`: always create a new error-severity notice at
the resolved line. -/
def FileNotices.add_error (self : FileNotices) (name_or_line : String ⊕ Nat)
    (error_type : String) (error : String) : Except String FileNotices :=
  match self.find_for_name_or_line name_or_line none false with
  | Except.error e => Except.error e
  | Except.ok (line_number, notices, _) =>
    Except.ok (self.set_line_notices line_number (notices.add
      { location := self.location, line_number := line_number, col := none,
        tag := some error_type, severity := "error", msg := error }))

/-- `FileNotices.add_note`: coalesce onto an existing note via
`change_reveal` (as the source does) when the unrestricted lookup finds any
notice, otherwise create a new note-severity notice. -/
def FileNotices.add_note (self : FileNotices) (name_or_line : String ⊕ Nat)
    (note : String) : Except String FileNotices :=
  match self.find_for_name_or_line name_or_line none false with
  | Except.error e => Except.error e
  | Except.ok (line_number, notices, existing) =>
    match existing with
    | some _ =>
      self.change_reveal name_or_line (fun original =>
        { original with msg := original.msg ++ "\n" ++ note })
    | none =>
      Except.ok (self.set_line_notices line_number (notices.add
        { location := self.location, line_number := line_number, col := none,
          tag := none, severity := "note", msg := note }))

/-- `ProgramNotices`: whole-program map from file path to `FileNotices`. -/
structure ProgramNotices where
  notices : List (List String × FileNotices)
deriving DecidableEq, Repr

/-- `ProgramNotices.has_notices`: `any(notices for notices in
self.notices.values())`, where each value is a `FileNotices` dataclass
instance and hence always truthy. -/
def ProgramNotices.has_notices (self : ProgramNotices) : Bool :=
  (self.notices.map Prod.snd).any FileNotices.pyBool

/-- Rendering of a path used only as a sort key for Python `sorted` over
path-keyed dict items. -/
def pathString (p : List String) : String := String.intercalate "/" p

/-- Bool-valued comparison used to model Python `sorted` on file paths. -/
def fileLe (a b : List String × FileNotices) : Bool :=
  match compare (pathString a.1) (pathString b.1) with
  | Ordering.gt => false
  | _ => true

/-- `ProgramNotices.__iter__`: files in sorted order, then each file's
notices. -/
def ProgramNotices.iterNotices (self : ProgramNotices) : List ProgramNotice :=
  ((insertionSortB fileLe self.notices).map Prod.snd).flatMap FileNotices.iterNotices

/-- The composite key a notice is bucketed under by `ProgramNotices.diff`. -/
abbrev DiffKey := List String × Nat

/-- Path normalisation in `ProgramNotices.diff`: relative to `root_dir` when
the location falls under it, else kept absolute. -/
def normPath (root_dir : List String) (loc : List String) : List String :=
  if root_dir.isPrefixOf loc then loc.drop root_dir.length else loc

/-- The `(path, line_number)` diff key of a notice. -/
def noticeKey (root_dir : List String) (n : ProgramNotice) : DiffKey :=
  (normPath root_dir n.location, n.line_number)

/-- `into[path][line].extend(ns)` on a `defaultdict` side table: extend the
bucket at an existing key in place, or append a fresh bucket. -/
def bucketExtend (k : DiffKey) (ns : List ProgramNotice) :
    List (DiffKey × List ProgramNotice) → List (DiffKey × List ProgramNotice)
  | [] => [(k, ns)]
  | (k', v) :: rest =>
    if k' = k then (k', v ++ ns) :: rest else (k', v) :: bucketExtend k ns rest

/-- One side of the diff: every notice of the program, expanded through
`for_compare`, bucketed under its `(path, line_number)` key. -/
def diffSide (root_dir : List String) (pns : ProgramNotices) :
    List (DiffKey × List ProgramNotice) :=
  pns.iterNotices.foldl (fun m n => bucketExtend (noticeKey root_dir n) n.for_compare m) []

/-- A left/right pair of notice buckets in a diff table. -/
abbrev DPair := List ProgramNotice × List ProgramNotice

/-- `final[path][line][index].extend(ns)`: grow one component of a pair. -/
def updPair (isRight : Bool) (p : DPair) (ns : List ProgramNotice) : DPair :=
  if isRight then (p.1, p.2 ++ ns) else (p.1 ++ ns, p.2)

/-- Extension of the combined diff table at one key, defaulting a missing
entry to a pair of empty buckets. -/
def tableExtend (isRight : Bool) (k : DiffKey) (ns : List ProgramNotice) :
    List (DiffKey × DPair) → List (DiffKey × DPair)
  | [] => [(k, updPair isRight (([], [])) ns)]
  | (k', v) :: rest =>
    if k' = k then (k', updPair isRight v ns) :: rest
    else (k', v) :: tableExtend isRight k ns rest

/-- `DiffNotices`: the combined diff table, keyed by `(path, line_number)`
(the source's nested path-then-line mapping, flattened to its composite
key). -/
structure DiffNotices where
  by_file_line : List (DiffKey × DPair)
deriving DecidableEq, Repr

/-- `ProgramNotices.diff`: bucket both sides and combine them into one table
with left buckets at index 0 and right buckets at index 1. -/
def ProgramNotices.diff (self : ProgramNotices) (root_dir : List String)
    (other : ProgramNotices) : DiffNotices :=
  let left := diffSide root_dir self
  let right := diffSide root_dir other
  let t := left.foldl (fun acc kv => tableExtend false kv.1 kv.2 acc) []
  ⟨right.foldl (fun acc kv => tableExtend true kv.1 kv.2 acc) t⟩

/-- `RunResult`: outcome of one run of the type checker. -/
structure RunResult where
  exit_code : Int
  stdout : String
  stderr : String
deriving DecidableEq, Repr

/-- `Expectations`: expected notices plus the expected-failure flag and
expected stderr. -/
structure Expectations where
  expect_fail : Bool
  expect_stderr : String
  expect_notices : ProgramNotices
deriving DecidableEq, Repr

/-- The exit-code assertion of `Expectations.check_results` (the stderr
assertion and the delegated notice check are separate collaborator calls):
`True` when the assertion passes. -/
def Expectations.check_results_exit_code (self : Expectations) (result : RunResult) : Bool :=
  if self.expect_fail ||
      self.expect_notices.iterNotices.any (fun n => decide (n.severity = "error")) then
    decide (result.exit_code ≠ 0)
  else
    decide (result.exit_code = 0)

/-! ## Basic lemmas about `matches` and `replace` -/

theorem matches_self (a : ProgramNotice) : a.matches a = true := by
  simp [ProgramNotice.matches]

theorem replaceLoop_matched_true (c : ProgramNotice → Bool) (r : ProgramNotice)
    (l : List ProgramNotice) : replaceLoop c r true l true = l := by
  induction l with
  | nil => rfl
  | cons n rest ih => simp [replaceLoop, ih]

/-- Spec-side restatement of first-only replacement: substitute the first
chooser match and leave the remainder of the sequence entirely unchanged. -/
def replaceFirstSpec (chooser : ProgramNotice → Bool) (replaced : ProgramNotice) :
    List ProgramNotice → List ProgramNotice
  | [] => []
  | n :: rest =>
    if chooser n then replaced :: rest else n :: replaceFirstSpec chooser replaced rest

theorem replaceLoop_first (c : ProgramNotice → Bool) (r : ProgramNotice)
    (l : List ProgramNotice) : replaceLoop c r true l false = replaceFirstSpec c r l := by
  induction l with
  | nil => rfl
  | cons n rest ih =>
    by_cases h : c n = true <;>
      simp [replaceLoop, replaceFirstSpec, h, ih, replaceLoop_matched_true]

theorem replaceLoop_all (c : ProgramNotice → Bool) (r : ProgramNotice)
    (l : List ProgramNotice) (m : Bool) :
    replaceLoop c r false l m = l.map (fun x => if c x then r else x) := by
  induction l generalizing m with
  | nil => rfl
  | cons n rest ih =>
    by_cases h : c n = true <;> simp [replaceLoop, h, ih]

theorem length_replaceLoop (c : ProgramNotice → Bool) (r : ProgramNotice)
    (fo : Bool) (l : List ProgramNotice) (m : Bool) :
    (replaceLoop c r fo l m).length = l.length := by
  induction l generalizing m with
  | nil => rfl
  | cons n rest ih =>
    unfold replaceLoop
    by_cases h : (c n && (!fo || !m)) = true <;> simp [h, ih]

theorem mem_replaceLoop (c : ProgramNotice → Bool) (r : ProgramNotice)
    (fo : Bool) (l : List ProgramNotice) (m : Bool) (x : ProgramNotice)
    (hx : x ∈ replaceLoop c r fo l m) : x ∈ l ∨ x = r := by
  induction l generalizing m with
  | nil => cases hx
  | cons n rest ih =>
    unfold replaceLoop at hx
    by_cases h : (c n && (!fo || !m)) = true
    · rw [if_pos h] at hx
      rcases List.mem_cons.mp hx with h1 | h1
      · exact Or.inr h1
      · rcases ih _ h1 with h2 | h2
        · exact Or.inl (List.mem_cons_of_mem _ h2)
        · exact Or.inr h2
    · rw [if_neg h] at hx
      rcases List.mem_cons.mp hx with h1 | h1
      · exact Or.inl (h1 ▸ List.mem_cons_self _ _)
      · rcases ih _ h1 with h2 | h2
        · exact Or.inl (List.mem_cons_of_mem _ h2)
        · exact Or.inr h2

theorem replaced_mem_replaceLoop_first (c : ProgramNotice → Bool) (r : ProgramNotice)
    (l : List ProgramNotice) (hx : ∃ x ∈ l, c x = true) :
    r ∈ replaceLoop c r true l false := by
  induction l with
  | nil => rcases hx with ⟨x, hm, _⟩; cases hm
  | cons n rest ih =>
    unfold replaceLoop
    by_cases h : c n = true
    · simp [h]
    · rcases hx with ⟨x, hm, hcx⟩
      rcases List.mem_cons.mp hm with rfl | hm'
      · exact absurd hcx h
      · simp only [h, Bool.false_and, Bool.not_true, Bool.not_false, Bool.or_true,
          Bool.and_true, if_neg, Bool.false_eq_true, not_false_iff]
        exact List.mem_cons_of_mem _ (ih ⟨x, hm', hcx⟩)

/-! ## C1: column semantics of `ProgramNotice.matches` -/

/-- C1 counterexample: two notices identical in every field except that the
left one omits the column and the right one provides column 1 do NOT match,
refuting the claim that a pair in which exactly one side specifies a column
still matches. -/
theorem C1_one_sided_col_counterexample :
    ProgramNotice.matches
      ⟨["m.py"], 1, none, "error", some "assignment", "bad"⟩
      ⟨["m.py"], 1, some 1, "error", some "assignment", "bad"⟩ = false := by
  decide

/-- C1 amended: `matches` succeeds exactly on full field equality, the
column included — an absent column matches only an absent column, so a
mismatch arises whenever the two optional column values differ, not only
when both sides provide one. -/
theorem C1_matches_iff_eq (a b : ProgramNotice) : a.matches b = true ↔ a = b := by
  cases a with
  | mk la na ca sa ta ma =>
    cases b with
    | mk lb nb cb sb tb mb =>
      constructor
      · intro h
        unfold ProgramNotice.matches at h
        by_cases h1 : la = lb <;> by_cases h2 : na = nb <;> by_cases h3 : sa = sb <;>
          by_cases h4 : ta = tb <;> by_cases h5 : ma = mb <;>
          simp only [h1, h2, h3, h4, h5, decide_True, decide_False, Bool.and_true,
            Bool.and_false, Bool.false_and, Bool.true_and, Bool.not_true, Bool.not_false,
            if_true, if_false, Bool.false_eq_true] at h
        · cases ca <;> cases cb <;> simp_all
      · intro h
        cases h
        exact matches_self _

/-! ## C2: `has_notices` and empty `LineNotices` entries -/

/-- C2: the code bug at a concrete input. A `FileNotices` whose mapping
holds exactly one `LineNotices` with an empty notice sequence reports
`has_notices = True` (dataclass truthiness), although no contained
`LineNotices` is non-empty — it contains zero notices — and a
`ProgramNotices` wrapping that file does the same. -/
theorem C2_has_notices_failing_input :
    LineNotices.has_notices ⟨["m.py"], 1, []⟩ = false
    ∧ FileNotices.has_notices ⟨["m.py"], [(1, ⟨["m.py"], 1, []⟩)], []⟩ = true
    ∧ FileNotices.iterNotices ⟨["m.py"], [(1, ⟨["m.py"], 1, []⟩)], []⟩ = []
    ∧ ProgramNotices.has_notices
        ⟨[(["m.py"], ⟨["m.py"], [(1, ⟨["m.py"], 1, []⟩)], []⟩)]⟩ = true
    ∧ ProgramNotices.iterNotices
        ⟨[(["m.py"], ⟨["m.py"], [(1, ⟨["m.py"], 1, []⟩)], []⟩)]⟩ = [] :=
  ⟨rfl, rfl, rfl, rfl, rfl⟩

/-! ## C8: `LineNotices.replace` -/

/-- C8: with `first_only` true, `replace` substitutes the replacement for
only the first chooser-matching notice and leaves the rest of the sequence
(later matches included) unchanged; with `first_only` false it substitutes
every matching notice; non-matching notices are kept and the length is
preserved in both cases. -/
theorem C8_replace_first_or_all (ln : LineNotices) (chooser : ProgramNotice → Bool)
    (replaced : ProgramNotice) :
    (ln.replace chooser replaced true).notices = replaceFirstSpec chooser replaced ln.notices
    ∧ (ln.replace chooser replaced false).notices =
        ln.notices.map (fun x => if chooser x then replaced else x)
    ∧ ∀ b : Bool, ((ln.replace chooser replaced b).notices).length = ln.notices.length := by
  refine ⟨replaceLoop_first _ _ _, replaceLoop_all _ _ _ _, fun b => length_replaceLoop _ _ _ _ _⟩

/-! ## C9: the per-line location/line_number invariant -/

/-- The invariant of §3: every contained notice carries the line's own
location and line number. -/
def lineInvariant (ln : LineNotices) : Prop :=
  ∀ x ∈ ln.notices, x.location = ln.location ∧ x.line_number = ln.line_number

/-- C9 counterexample: `LineNotices.add` performs no validation, so adding a
notice whose line number differs from the line's own breaks the invariant
even though it held beforehand — the operations do not preserve it for
EVERY argument supplied through the public interface. -/
theorem C9_add_counterexample :
    lineInvariant ⟨["m.py"], 1, []⟩
    ∧ ¬ lineInvariant
        (LineNotices.add ⟨["m.py"], 1, []⟩ ⟨["m.py"], 2, none, "note", none, "x"⟩) := by
  constructor
  · intro x hx
    simp at hx
  · intro h
    have := h ⟨["m.py"], 2, none, "note", none, "x"⟩ (by simp [LineNotices.add])
    simp [LineNotices.add] at this

/-- C9 amended: `add`, `replace` and `remove` preserve the invariant
provided the argument notice and the replacement themselves carry the
line's location and line number (`remove` needs no side condition); the
operations rely on callers for this and do not check it. -/
theorem C9_invariant_preserved (ln : LineNotices) (notice replaced : ProgramNotice)
    (chooser : ProgramNotice → Bool) (fo : Bool)
    (hinv : lineInvariant ln)
    (hla : notice.location = ln.location) (hna : notice.line_number = ln.line_number)
    (hlr : replaced.location = ln.location) (hnr : replaced.line_number = ln.line_number) :
    lineInvariant (ln.add notice)
    ∧ lineInvariant (ln.replace chooser replaced fo)
    ∧ lineInvariant (ln.remove chooser) := by
  refine ⟨?_, ?_, ?_⟩
  · intro x hx
    rcases List.mem_append.mp hx with h | h
    · exact hinv x h
    · rcases List.mem_singleton.mp h with rfl
      exact ⟨hla, hna⟩
  · intro x hx
    rcases mem_replaceLoop _ _ _ _ _ _ hx with h | rfl
    · exact hinv x h
    · exact ⟨hlr, hnr⟩
  · intro x hx
    exact hinv x (List.mem_of_mem_filter hx)

/-- C9 witness: the amended preservation theorem applied at a concrete line
with a correctly-located notice and replacement. -/
theorem C9_invariant_witness :
    lineInvariant
      (LineNotices.add ⟨["m.py"], 1, [⟨["m.py"], 1, none, "note", none, "x"⟩]⟩
        ⟨["m.py"], 1, some 2, "error", none, "y"⟩)
    ∧ lineInvariant
        (LineNotices.replace ⟨["m.py"], 1, [⟨["m.py"], 1, none, "note", none, "x"⟩]⟩
          (fun n => n.severity == "note") ⟨["m.py"], 1, some 2, "error", none, "y"⟩ true)
    ∧ lineInvariant
        (LineNotices.remove ⟨["m.py"], 1, [⟨["m.py"], 1, none, "note", none, "x"⟩]⟩
          (fun n => n.severity == "note")) :=
  C9_invariant_preserved ⟨["m.py"], 1, [⟨["m.py"], 1, none, "note", none, "x"⟩]⟩
    ⟨["m.py"], 1, some 2, "error", none, "y"⟩ ⟨["m.py"], 1, some 2, "error", none, "y"⟩
    (fun n => n.severity == "note") true
    (by intro x hx; simp only [List.mem_singleton] at hx; subst hx; exact ⟨rfl, rfl⟩)
    rfl rfl rfl rfl

/-! ## Lemmas about dict operations and the reverse scan -/

theorem alookup_dictSet_self {κ α : Type} [DecidableEq κ] (m : List (κ × α)) (k : κ) (v : α) :
    alookup (dictSet m k v) k = some v := by
  induction m with
  | nil => simp [dictSet, alookup]
  | cons kv rest ih =>
    obtain ⟨k', v'⟩ := kv
    by_cases h : k' = k <;> simp [dictSet, alookup, h, ih]

theorem alookup_dictSet_ne {κ α : Type} [DecidableEq κ] (m : List (κ × α)) (k k' : κ) (v : α)
    (h : k' ≠ k) : alookup (dictSet m k v) k' = alookup m k' := by
  induction m with
  | nil => simp [dictSet, alookup, Ne.symm h]
  | cons kv rest ih =>
    obtain ⟨k0, v0⟩ := kv
    by_cases h0 : k0 = k
    · subst h0
      simp [dictSet, alookup, Ne.symm h]
    · simp only [dictSet, if_neg h0, alookup]
      by_cases h1 : k0 = k' <;> simp [h1, ih]

theorem scanFound_none_eq_head? (l : List ProgramNotice) : scanFound l none = l.head? := by
  cases l <;> rfl

theorem scanFound_some_eq_find? (l : List ProgramNotice) (s : String) :
    scanFound l (some s) = l.find? (fun x => decide (x.severity = s)) := by
  induction l with
  | nil => rfl
  | cons n rest ih =>
    by_cases h : n.severity = s <;> simp [scanFound, List.find?, h, ih]

theorem scanFound_mem (l : List ProgramNotice) (sev : Option String) (e : ProgramNotice)
    (h : scanFound l sev = some e) : e ∈ l := by
  induction l with
  | nil => cases h
  | cons n rest ih =>
    cases sev with
    | none =>
      rw [show scanFound (n :: rest) none = some n from rfl] at h
      exact (Option.some_inj.mp h) ▸ List.mem_cons_self _ _
    | some s =>
      unfold scanFound at h
      by_cases hs : n.severity = s
      · rw [if_pos hs] at h
        exact (Option.some_inj.mp h) ▸ List.mem_cons_self _ _
      · rw [if_neg hs] at h
        exact List.mem_cons_of_mem _ (ih h)

theorem scanFound_severity (l : List ProgramNotice) (s : String) (e : ProgramNotice)
    (h : scanFound l (some s) = some e) : e.severity = s := by
  induction l with
  | nil => cases h
  | cons n rest ih =>
    unfold scanFound at h
    by_cases hs : n.severity = s
    · rw [if_pos hs] at h
      exact (Option.some_inj.mp h) ▸ hs
    · rw [if_neg hs] at h
      exact ih h

theorem scanFound_eq_none (l : List ProgramNotice) (s : String)
    (h : ∀ x ∈ l, ¬ x.severity = s) : scanFound l (some s) = none := by
  induction l with
  | nil => rfl
  | cons n rest ih =>
    unfold scanFound
    rw [if_neg (h n (List.mem_cons_self _ _))]
    exact ih (fun x hx => h x (List.mem_cons_of_mem _ hx))

/-! ## Reduction lemmas for `find_for_name_or_line` and friends -/

theorem resolveLine_set_line_notices (f : FileNotices) (k : Nat) (ln : LineNotices)
    (nor : String ⊕ Nat) : resolveLine (f.set_line_notices k ln) nor = resolveLine f nor := by
  cases nor <;> rfl

theorem find_false_of_lookup (f : FileNotices) (nor : String ⊕ Nat) (n : Nat)
    (ln : LineNotices) (sev : Option String)
    (hres : resolveLine f nor = Except.ok n)
    (hln : f.notices_for_line_number n = some ln) :
    f.find_for_name_or_line nor sev false =
      Except.ok (n, ln, scanFound ln.notices.reverse sev) := by
  simp [FileNotices.find_for_name_or_line, hres, hln]

theorem find_false_of_lookup_none (f : FileNotices) (nor : String ⊕ Nat) (n : Nat)
    (sev : Option String)
    (hres : resolveLine f nor = Except.ok n)
    (hln : f.notices_for_line_number n = none) :
    f.find_for_name_or_line nor sev false =
      Except.ok (n, ⟨f.location, n, []⟩, none) := by
  simp [FileNotices.find_for_name_or_line, hres, hln]

theorem find_true_found (f : FileNotices) (nor : String ⊕ Nat) (n : Nat)
    (ln : LineNotices) (sev : Option String) (e : ProgramNotice)
    (hres : resolveLine f nor = Except.ok n)
    (hln : f.notices_for_line_number n = some ln)
    (he : scanFound ln.notices.reverse sev = some e) :
    f.find_for_name_or_line nor sev true = Except.ok (n, ln, some e) := by
  simp [FileNotices.find_for_name_or_line, hres, hln, he]

theorem find_true_not_found (f : FileNotices) (nor : String ⊕ Nat) (n : Nat)
    (ln : LineNotices) (sev : Option String)
    (hres : resolveLine f nor = Except.ok n)
    (hln : f.notices_for_line_number n = some ln)
    (he : scanFound ln.notices.reverse sev = none) :
    f.find_for_name_or_line nor sev true =
      Except.error "Found no existing notice for named line or severity" := by
  simp [FileNotices.find_for_name_or_line, hres, hln, he]

theorem change_reveal_ok (f : FileNotices) (nor : String ⊕ Nat) (n : Nat)
    (ln : LineNotices) (e : ProgramNotice) (modify : ProgramNotice → ProgramNotice)
    (hres : resolveLine f nor = Except.ok n)
    (hln : f.notices_for_line_number n = some ln)
    (he : scanFound ln.notices.reverse (some "note") = some e) :
    f.change_reveal nor modify =
      Except.ok (f.set_line_notices n
        (ln.replace (fun original => original.matches e) (modify e) true)) := by
  rw [FileNotices.change_reveal, find_true_found f nor n ln (some "note") e hres hln he]

theorem change_reveal_err (f : FileNotices) (nor : String ⊕ Nat) (n : Nat)
    (ln : LineNotices) (modify : ProgramNotice → ProgramNotice)
    (hres : resolveLine f nor = Except.ok n)
    (hln : f.notices_for_line_number n = some ln)
    (he : scanFound ln.notices.reverse (some "note") = none) :
    f.change_reveal nor modify =
      Except.error "Found no existing notice for named line or severity" := by
  rw [FileNotices.change_reveal, find_true_not_found f nor n ln (some "note") hres hln he]

theorem add_reveal_existing (f : FileNotices) (nor : String ⊕ Nat) (n : Nat)
    (ln : LineNotices) (r : String) (e0 : ProgramNotice)
    (hres : resolveLine f nor = Except.ok n)
    (hln : f.notices_for_line_number n = some ln)
    (hscan : scanFound ln.notices.reverse none = some e0) :
    f.add_reveal nor r = f.change_reveal nor (fun original =>
      { original with msg := original.msg ++ "\nRevealed type is \"" ++ r ++ "\"" }) := by
  rw [FileNotices.add_reveal, find_false_of_lookup f nor n ln none hres hln, hscan]

theorem add_reveal_fresh (f : FileNotices) (nor : String ⊕ Nat) (n : Nat)
    (ln : LineNotices) (r : String)
    (hres : resolveLine f nor = Except.ok n)
    (hln : f.notices_for_line_number n = some ln)
    (hempty : ln.notices = []) :
    f.add_reveal nor r = Except.ok (f.set_line_notices n (ln.add
      ⟨f.location, n, none, "note", none, "Revealed type is \"" ++ r ++ "\""⟩)) := by
  rw [FileNotices.add_reveal, find_false_of_lookup f nor n ln none hres hln, hempty]
  rfl

theorem add_reveal_fresh_none (f : FileNotices) (nor : String ⊕ Nat) (n : Nat) (r : String)
    (hres : resolveLine f nor = Except.ok n)
    (hln : f.notices_for_line_number n = none) :
    f.add_reveal nor r = Except.ok (f.set_line_notices n (LineNotices.add ⟨f.location, n, []⟩
      ⟨f.location, n, none, "note", none, "Revealed type is \"" ++ r ++ "\""⟩)) := by
  rw [FileNotices.add_reveal, find_false_of_lookup_none f nor n none hres hln]

/-! ## C4: reverse-insertion-order lookup and `add_error` -/

/-- C4: on a resolvable line whose notices are present, a severity-filtered
`find_for_name_or_line` returns the first notice of the reversed insertion
order with that severity (the most recently added of that severity), and an
unfiltered lookup returns the last-added notice; consequently `add_error`
followed by a severity-"error" lookup returns the just-added notice (which
is then the most recent error on that line). -/
theorem C4_find_reverse_scan (f : FileNotices) (nor : String ⊕ Nat) (n : Nat)
    (hres : resolveLine f nor = Except.ok n) :
    (∀ ln s, f.notices_for_line_number n = some ln →
      f.find_for_name_or_line nor (some s) false =
        Except.ok (n, ln, ln.notices.reverse.find? (fun x => decide (x.severity = s)))
      ∧ f.find_for_name_or_line nor none false = Except.ok (n, ln, ln.notices.getLast?))
    ∧ (∀ error_type error, ∃ f' ln',
        f.add_error nor error_type error = Except.ok f'
        ∧ f'.find_for_name_or_line nor (some "error") false =
            Except.ok (n, ln', some ⟨f.location, n, none, "error", some error_type, error⟩)
        ∧ ln'.notices.getLast? = some ⟨f.location, n, none, "error", some error_type, error⟩) := by
  constructor
  · intro ln s hln
    constructor
    · rw [find_false_of_lookup f nor n ln (some s) hres hln, scanFound_some_eq_find?]
    · rw [find_false_of_lookup f nor n ln none hres hln, scanFound_none_eq_head?,
        List.head?_reverse]
  · intro error_type error
    have hnew : ∀ (base : LineNotices),
        f.add_error nor error_type error = Except.ok (f.set_line_notices n (base.add
          ⟨f.location, n, none, "error", some error_type, error⟩)) →
        ∃ f' ln', f.add_error nor error_type error = Except.ok f'
          ∧ f'.find_for_name_or_line nor (some "error") false =
              Except.ok (n, ln', some ⟨f.location, n, none, "error", some error_type, error⟩)
          ∧ ln'.notices.getLast? = some ⟨f.location, n, none, "error", some error_type, error⟩ := by
      intro base hadd
      refine ⟨_, base.add ⟨f.location, n, none, "error", some error_type, error⟩, hadd, ?_, ?_⟩
      · have hres' : resolveLine (f.set_line_notices n (base.add
            ⟨f.location, n, none, "error", some error_type, error⟩)) nor = Except.ok n := by
          rw [resolveLine_set_line_notices]; exact hres
        have hln' : (f.set_line_notices n (base.add
            ⟨f.location, n, none, "error", some error_type, error⟩)).notices_for_line_number n =
            some (base.add ⟨f.location, n, none, "error", some error_type, error⟩) := by
          unfold FileNotices.notices_for_line_number FileNotices.set_line_notices
          exact alookup_dictSet_self _ _ _
        rw [find_false_of_lookup _ nor n _ (some "error") hres' hln']
        unfold LineNotices.add
        simp [scanFound]
      · unfold LineNotices.add
        simp
    cases hlook : f.notices_for_line_number n with
    | none =>
      refine hnew ⟨f.location, n, []⟩ ?_
      rw [FileNotices.add_error, find_false_of_lookup_none f nor n none hres hlook]
    | some ln =>
      refine hnew ln ?_
      rw [FileNotices.add_error, find_false_of_lookup f nor n ln none hres hlook]

/-- A concrete file with one error notice on line 1, used by the C4 witness. -/
def lnEx4 : LineNotices := ⟨["m.py"], 1, [⟨["m.py"], 1, none, "error", some "arg-type", "bad"⟩]⟩

/-- The C4 witness file. -/
def fEx4 : FileNotices := ⟨["m.py"], [(1, lnEx4)], []⟩

/-- C4 witness: the reverse-scan theorem applied at a concrete file. -/
theorem C4_find_reverse_scan_witness :
    (fEx4.find_for_name_or_line (Sum.inr 1) (some "error") false =
      Except.ok (1, lnEx4, lnEx4.notices.reverse.find? (fun x => decide (x.severity = "error")))
    ∧ fEx4.find_for_name_or_line (Sum.inr 1) none false =
      Except.ok (1, lnEx4, lnEx4.notices.getLast?))
    ∧ ∃ f' ln', fEx4.add_error (Sum.inr 1) "assignment" "boom" = Except.ok f'
        ∧ f'.find_for_name_or_line (Sum.inr 1) (some "error") false =
            Except.ok (1, ln', some ⟨["m.py"], 1, none, "error", some "assignment", "boom"⟩)
        ∧ ln'.notices.getLast? = some ⟨["m.py"], 1, none, "error", some "assignment", "boom"⟩ :=
  ⟨(C4_find_reverse_scan fEx4 (Sum.inr 1) 1 rfl).1 lnEx4 "error" rfl,
   (C4_find_reverse_scan fEx4 (Sum.inr 1) 1 rfl).2 "assignment" "boom"⟩

/-! ## C10: `add_note` / `add_reveal` on a note-less but non-empty line -/

theorem add_note_existing (f : FileNotices) (nor : String ⊕ Nat) (n : Nat)
    (ln : LineNotices) (note : String) (e0 : ProgramNotice)
    (hres : resolveLine f nor = Except.ok n)
    (hln : f.notices_for_line_number n = some ln)
    (hscan : scanFound ln.notices.reverse none = some e0) :
    f.add_note nor note = f.change_reveal nor (fun original =>
      { original with msg := original.msg ++ "\n" ++ note }) := by
  rw [FileNotices.add_note, find_false_of_lookup f nor n ln none hres hln, hscan]

theorem head_of_reverse_ne_nil (l : List ProgramNotice) (h : l ≠ []) :
    ∃ e0, scanFound l.reverse none = some e0 := by
  rw [scanFound_none_eq_head?, List.head?_reverse]
  cases hl : l.getLast? with
  | none => exact absurd (List.getLast?_eq_none_iff.mp hl) h
  | some a => exact ⟨a, rfl⟩

/-- C10: when the resolved line holds at least one notice but none of
severity "note", both `add_note` and `add_reveal` fail with the
`must_exist` lookup error instead of creating a new note: the coalescing
trigger looks at the last-added notice of any severity, and the delegated
`change_reveal` path then demands an existing note. -/
theorem C10_add_note_reveal_error (f : FileNotices) (nor : String ⊕ Nat) (n : Nat)
    (ln : LineNotices) (note rev : String)
    (hres : resolveLine f nor = Except.ok n)
    (hln : f.notices_for_line_number n = some ln)
    (hne : ln.notices ≠ [])
    (hnonote : ∀ x ∈ ln.notices, ¬ x.severity = "note") :
    f.add_note nor note = Except.error "Found no existing notice for named line or severity"
    ∧ f.add_reveal nor rev =
        Except.error "Found no existing notice for named line or severity" := by
  obtain ⟨e0, hscan⟩ := head_of_reverse_ne_nil ln.notices hne
  have hnotescan : scanFound ln.notices.reverse (some "note") = none :=
    scanFound_eq_none _ _ (fun x hx => hnonote x (List.mem_reverse.mp hx))
  constructor
  · rw [add_note_existing f nor n ln note e0 hres hln hscan,
      change_reveal_err f nor n ln _ hres hln hnotescan]
  · rw [add_reveal_existing f nor n ln rev e0 hres hln hscan,
      change_reveal_err f nor n ln _ hres hln hnotescan]

/-- The C10 witness file: line 1 holds one error notice and no note. -/
def fEx10 : FileNotices :=
  ⟨["m.py"], [(1, ⟨["m.py"], 1, [⟨["m.py"], 1, some 4, "error", some "arg-type", "bad"⟩]⟩)], []⟩

/-- C10 witness: the lookup-error theorem applied at a concrete file. -/
theorem C10_add_note_reveal_error_witness :
    fEx10.add_note (Sum.inr 1) "a note" =
      Except.error "Found no existing notice for named line or severity"
    ∧ fEx10.add_reveal (Sum.inr 1) "int" =
      Except.error "Found no existing notice for named line or severity" :=
  C10_add_note_reveal_error fEx10 (Sum.inr 1) 1
    ⟨["m.py"], 1, [⟨["m.py"], 1, some 4, "error", some "arg-type", "bad"⟩]⟩
    "a note" "int" rfl rfl (by decide) (by decide)

/-! ## C3: `add_reveal` coalescing and creation -/

/-- C3 counterexample: on a line that already holds a (single, error) notice
but no note, `add_reveal` does not create a new note-severity notice as the
claim's "otherwise" branch states — it raises the `must_exist` lookup
error, because the coalescing trigger fires on any existing notice. -/
theorem C3_error_line_counterexample :
    FileNotices.add_reveal
      ⟨["m.py"], [(1, ⟨["m.py"], 1, [⟨["m.py"], 1, none, "error", some "arg-type", "bad"⟩]⟩)], []⟩
      (Sum.inr 1) "X" =
      Except.error "Found no existing notice for named line or severity" := by
  rfl

theorem add_reveal_empty_line (f : FileNotices) (nor : String ⊕ Nat) (n : Nat) (r : String)
    (hres : resolveLine f nor = Except.ok n)
    (hempty : ∀ ln, f.notices_for_line_number n = some ln → ln.notices = []) :
    ∃ ln1, f.add_reveal nor r = Except.ok (f.set_line_notices n ln1)
      ∧ ln1.notices = [⟨f.location, n, none, "note", none,
          "Revealed type is \"" ++ r ++ "\""⟩] := by
  cases hlook : f.notices_for_line_number n with
  | none =>
    exact ⟨_, add_reveal_fresh_none f nor n r hres hlook, by simp [LineNotices.add]⟩
  | some ln =>
    exact ⟨_, add_reveal_fresh f nor n ln r hres hlook (hempty ln hlook),
      by simp [LineNotices.add, hempty ln hlook]⟩

theorem lookup_set_line_notices_self (f : FileNotices) (n : Nat) (ln : LineNotices) :
    (f.set_line_notices n ln).notices_for_line_number n = some ln :=
  alookup_dictSet_self _ _ _

/-- C3 amended: when the resolved line contains a note, `add_reveal`
appends the revealed-type line onto the message of the most recently added
note (found by the reverse scan), keeping the number of notices on the line
unchanged; when the resolved line has no notices at all it creates a single
new note-severity notice with that message (when notices exist but none is
a note it instead raises a lookup error, see the counterexample); and two
invocations at the same initially-empty resolved line coalesce into one
note whose message carries both revealed-type lines in call order, never
two separate notes. -/
theorem C3_add_reveal_coalesces (f : FileNotices) (nor : String ⊕ Nat) (n : Nat)
    (r r2 : String) (hres : resolveLine f nor = Except.ok n) :
    (∀ ln e, f.notices_for_line_number n = some ln →
      scanFound ln.notices.reverse (some "note") = some e →
      ∃ f' ln', f.add_reveal nor r = Except.ok f'
        ∧ f'.notices_for_line_number n = some ln'
        ∧ ln'.notices.length = ln.notices.length
        ∧ ({ e with msg := e.msg ++ "\nRevealed type is \"" ++ r ++ "\"" }) ∈ ln'.notices)
    ∧ ((∀ ln, f.notices_for_line_number n = some ln → ln.notices = []) →
      ∃ f' ln', f.add_reveal nor r = Except.ok f'
        ∧ f'.notices_for_line_number n = some ln'
        ∧ ln'.notices = [⟨f.location, n, none, "note", none,
            "Revealed type is \"" ++ r ++ "\""⟩])
    ∧ ((∀ ln, f.notices_for_line_number n = some ln → ln.notices = []) →
      ∃ f1 f2 ln2, f.add_reveal nor r = Except.ok f1
        ∧ f1.add_reveal nor r2 = Except.ok f2
        ∧ f2.notices_for_line_number n = some ln2
        ∧ ln2.notices = [⟨f.location, n, none, "note", none,
            "Revealed type is \"" ++ r ++ "\"" ++ "\nRevealed type is \"" ++ r2 ++ "\""⟩]) := by
  refine ⟨?_, ?_, ?_⟩
  · intro ln e hln hscan
    have hmem : e ∈ ln.notices := List.mem_reverse.mp (scanFound_mem _ _ _ hscan)
    have hne : ln.notices ≠ [] := by
      intro h
      rw [h] at hmem
      cases hmem
    obtain ⟨e0, hscan0⟩ := head_of_reverse_ne_nil ln.notices hne
    have hadd : f.add_reveal nor r = Except.ok (f.set_line_notices n
        (ln.replace (fun original => original.matches e)
          ({ e with msg := e.msg ++ "\nRevealed type is \"" ++ r ++ "\"" }) true)) := by
      rw [add_reveal_existing f nor n ln r e0 hres hln hscan0,
        change_reveal_ok f nor n ln e _ hres hln hscan]
    refine ⟨_, ln.replace (fun original => original.matches e)
        ({ e with msg := e.msg ++ "\nRevealed type is \"" ++ r ++ "\"" }) true,
      hadd, lookup_set_line_notices_self _ _ _, ?_, ?_⟩
    · exact length_replaceLoop _ _ _ _ _
    · exact replaced_mem_replaceLoop_first _ _ _ ⟨e, hmem, matches_self e⟩
  · intro hempty
    obtain ⟨ln1, hadd, hnotices⟩ := add_reveal_empty_line f nor n r hres hempty
    exact ⟨_, ln1, hadd, lookup_set_line_notices_self _ _ _, hnotices⟩
  · intro hempty
    obtain ⟨ln1, hadd, hnotices⟩ := add_reveal_empty_line f nor n r hres hempty
    have hres1 : resolveLine (f.set_line_notices n ln1) nor = Except.ok n := by
      rw [resolveLine_set_line_notices]
      exact hres
    have hln1 : (f.set_line_notices n ln1).notices_for_line_number n = some ln1 :=
      lookup_set_line_notices_self _ _ _
    have hscan0 : scanFound ln1.notices.reverse none =
        some ⟨f.location, n, none, "note", none, "Revealed type is \"" ++ r ++ "\""⟩ := by
      rw [hnotices]
      rfl
    have hscannote : scanFound ln1.notices.reverse (some "note") =
        some ⟨f.location, n, none, "note", none, "Revealed type is \"" ++ r ++ "\""⟩ := by
      rw [hnotices]
      simp [scanFound]
    have hadd2 : (f.set_line_notices n ln1).add_reveal nor r2 =
        Except.ok ((f.set_line_notices n ln1).set_line_notices n
          (ln1.replace
            (fun original => original.matches
              ⟨f.location, n, none, "note", none, "Revealed type is \"" ++ r ++ "\""⟩)
            ({ location := f.location, line_number := n, col := none, severity := "note",
               tag := none,
               msg := "Revealed type is \"" ++ r ++ "\"" ++ "\nRevealed type is \"" ++ r2 ++ "\"" })
            true)) := by
      rw [add_reveal_existing _ nor n ln1 r2 _ hres1 hln1 hscan0,
        change_reveal_ok _ nor n ln1 _ _ hres1 hln1 hscannote]
    refine ⟨_, _, _, hadd, hadd2, lookup_set_line_notices_self _ _ _, ?_⟩
    show (ln1.replace _ _ true).notices = _
    unfold LineNotices.replace
    rw [hnotices]
    simp [replaceLoop, matches_self]

/-- The C3 witness file with an existing note on line 2. -/
def fEx3a : FileNotices :=
  ⟨["m.py"], [(2, ⟨["m.py"], 2, [⟨["m.py"], 2, none, "note", none, "hello"⟩]⟩)], []⟩

/-- The C3 witness file with no notices. -/
def fEx3b : FileNotices := ⟨["m.py"], [], []⟩

/-- C3 witness: the amended coalescing theorem applied at concrete files. -/
theorem C3_add_reveal_coalesces_witness :
    (∃ f' ln', fEx3a.add_reveal (Sum.inr 2) "int" = Except.ok f'
      ∧ f'.notices_for_line_number 2 = some ln'
      ∧ ln'.notices.length = 1
      ∧ (⟨["m.py"], 2, none, "note", none,
          "hello" ++ "\nRevealed type is \"" ++ "int" ++ "\""⟩ : ProgramNotice) ∈ ln'.notices)
    ∧ (∃ f' ln', fEx3b.add_reveal (Sum.inr 1) "int" = Except.ok f'
      ∧ f'.notices_for_line_number 1 = some ln'
      ∧ ln'.notices = [⟨["m.py"], 1, none, "note", none,
          "Revealed type is \"" ++ "int" ++ "\""⟩])
    ∧ (∃ f1 f2 ln2, fEx3b.add_reveal (Sum.inr 1) "int" = Except.ok f1
      ∧ f1.add_reveal (Sum.inr 1) "str" = Except.ok f2
      ∧ f2.notices_for_line_number 1 = some ln2
      ∧ ln2.notices = [⟨["m.py"], 1, none, "note", none,
          "Revealed type is \"" ++ "int" ++ "\"" ++ "\nRevealed type is \"" ++ "str" ++ "\""⟩]) := by
  refine ⟨?_, ?_, ?_⟩
  · exact (C3_add_reveal_coalesces fEx3a (Sum.inr 2) 2 "int" "str" rfl).1
      ⟨["m.py"], 2, [⟨["m.py"], 2, none, "note", none, "hello"⟩]⟩
      ⟨["m.py"], 2, none, "note", none, "hello"⟩ rfl rfl
  · exact (C3_add_reveal_coalesces fEx3b (Sum.inr 1) 1 "int" "str" rfl).2.1
      (fun ln h => Option.noConfusion h)
  · exact (C3_add_reveal_coalesces fEx3b (Sum.inr 1) 1 "int" "str" rfl).2.2
      (fun ln h => Option.noConfusion h)

/-! ## C5: the expected exit-status rule -/

/-- C5: the exit-code assertion of `check_results` passes iff the actual
exit code agrees with the rule "non-zero exactly when the expected-fail
flag is set or some expected notice has error severity"; in particular one
error-severity expected notice with `expect_fail = False` already requires
a non-zero exit code. -/
theorem C5_exit_code_rule (e : Expectations) (r : RunResult) :
    (e.check_results_exit_code r = false ↔
      ¬ ((r.exit_code ≠ 0) ↔
        (e.expect_fail = true ∨ ∃ x ∈ e.expect_notices.iterNotices, x.severity = "error")))
    ∧ (e.expect_fail = false →
      (∃ x ∈ e.expect_notices.iterNotices, x.severity = "error") →
      (e.check_results_exit_code r = true ↔ r.exit_code ≠ 0)) := by
  have hcond : (e.expect_fail ||
      e.expect_notices.iterNotices.any (fun n => decide (n.severity = "error"))) = true ↔
      (e.expect_fail = true ∨ ∃ x ∈ e.expect_notices.iterNotices, x.severity = "error") := by
    simp [List.any_eq_true]
  constructor
  · unfold Expectations.check_results_exit_code
    by_cases h : (e.expect_fail ||
        e.expect_notices.iterNotices.any (fun n => decide (n.severity = "error"))) = true
    · rw [if_pos h]
      have hr := hcond.mp h
      simp [hr]
    · rw [if_neg h]
      have hnr : ¬ (e.expect_fail = true ∨
          ∃ x ∈ e.expect_notices.iterNotices, x.severity = "error") :=
        fun hr => h (hcond.mpr hr)
      simp [hnr]
  · intro hf hx
    unfold Expectations.check_results_exit_code
    rw [if_pos (hcond.mpr (Or.inr hx))]
    simp

/-- The C5 witness expectations: `expect_fail` is false but one expected
notice has error severity. -/
def eEx5 : Expectations :=
  ⟨false, "",
    ⟨[(["m.py"], ⟨["m.py"],
      [(3, ⟨["m.py"], 3, [⟨["m.py"], 3, none, "error", some "assignment", "boom"⟩]⟩)], []⟩)]⟩⟩

/-- C5 witness: the exit-code rule applied to the concrete expectations and
a run that exited with code 1. -/
theorem C5_exit_code_rule_witness : eEx5.check_results_exit_code ⟨1, "", ""⟩ = true :=
  ((C5_exit_code_rule eEx5 ⟨1, "", ""⟩).2 rfl
    ⟨⟨["m.py"], 3, none, "error", some "assignment", "boom"⟩, by decide, rfl⟩).mpr (by decide)

/-! ## Lemmas about the diff bucket tables -/

theorem alookup_isSome_iff {κ α : Type} [DecidableEq κ] (m : List (κ × α)) (k : κ) :
    (alookup m k).isSome = true ↔ ∃ kv ∈ m, kv.1 = k := by
  induction m with
  | nil => simp [alookup]
  | cons kv rest ih =>
    obtain ⟨k', v⟩ := kv
    by_cases h : k' = k
    · subst h
      simp [alookup]
    · simp only [alookup, if_neg h, ih, List.mem_cons]
      constructor
      · rintro ⟨kv0, hm, hk⟩
        exact ⟨kv0, Or.inr hm, hk⟩
      · rintro ⟨kv0, hm | hm, hk⟩
        · rw [hm] at hk
          exact absurd hk h
        · exact ⟨kv0, hm, hk⟩

theorem alookup_bucketExtend_self (m : List (DiffKey × List ProgramNotice)) (k : DiffKey)
    (ns : List ProgramNotice) :
    alookup (bucketExtend k ns m) k = some ((alookup m k).getD [] ++ ns) := by
  induction m with
  | nil => simp [bucketExtend, alookup]
  | cons kv rest ih =>
    obtain ⟨k', v⟩ := kv
    by_cases h : k' = k
    · subst h
      simp [bucketExtend, alookup]
    · simp [bucketExtend, alookup, h, ih]

theorem alookup_bucketExtend_ne (m : List (DiffKey × List ProgramNotice)) (k k' : DiffKey)
    (ns : List ProgramNotice) (h : k' ≠ k) :
    alookup (bucketExtend k ns m) k' = alookup m k' := by
  induction m with
  | nil => simp [bucketExtend, alookup, Ne.symm h]
  | cons kv rest ih =>
    obtain ⟨k0, v0⟩ := kv
    by_cases h0 : k0 = k
    · subst h0
      simp [bucketExtend, alookup, Ne.symm h]
    · simp only [bucketExtend, if_neg h0, alookup]
      by_cases h1 : k0 = k' <;> simp [h1, ih]

theorem lookupD_foldl_bucket (root : List String) (L : List ProgramNotice)
    (m₀ : List (DiffKey × List ProgramNotice)) (k : DiffKey) :
    (alookup (L.foldl (fun m n => bucketExtend (noticeKey root n) n.for_compare m) m₀) k).getD []
      = (alookup m₀ k).getD [] ++
        (L.filter (fun n => decide (noticeKey root n = k))).flatMap ProgramNotice.for_compare := by
  induction L generalizing m₀ with
  | nil => simp
  | cons n rest ih =>
    rw [List.foldl_cons, ih]
    by_cases h : noticeKey root n = k
    · rw [← h, alookup_bucketExtend_self]
      simp [h, List.append_assoc]
    · rw [alookup_bucketExtend_ne _ _ _ _ (Ne.symm h)]
      simp [h]

theorem isSome_foldl_bucket (root : List String) (L : List ProgramNotice)
    (m₀ : List (DiffKey × List ProgramNotice)) (k : DiffKey) :
    (alookup (L.foldl (fun m n => bucketExtend (noticeKey root n) n.for_compare m) m₀) k).isSome
      = true ↔
    (alookup m₀ k).isSome = true ∨ ∃ n ∈ L, noticeKey root n = k := by
  induction L generalizing m₀ with
  | nil => simp
  | cons n rest ih =>
    rw [List.foldl_cons, ih]
    by_cases h : noticeKey root n = k
    · rw [← h, alookup_bucketExtend_self]
      simp [h]
    · rw [alookup_bucketExtend_ne _ _ _ _ (Ne.symm h)]
      simp only [List.mem_cons]
      constructor
      · rintro (hs | ⟨x, hm, hk⟩)
        · exact Or.inl hs
        · exact Or.inr ⟨x, Or.inr hm, hk⟩
      · rintro (hs | ⟨x, hm | hm, hk⟩)
        · exact Or.inl hs
        · rw [hm] at hk
          exact absurd hk h
        · exact Or.inr ⟨x, hm, hk⟩

theorem lookupD_diffSide (root : List String) (p : ProgramNotices) (k : DiffKey) :
    (alookup (diffSide root p) k).getD []
      = (p.iterNotices.filter
          (fun n => decide (noticeKey root n = k))).flatMap ProgramNotice.for_compare := by
  rw [diffSide, lookupD_foldl_bucket]
  rfl

theorem isSome_diffSide (root : List String) (p : ProgramNotices) (k : DiffKey) :
    (alookup (diffSide root p) k).isSome = true ↔ ∃ n ∈ p.iterNotices, noticeKey root n = k := by
  rw [diffSide, isSome_foldl_bucket]
  simp [alookup]

theorem alookup_tableExtend_self (m : List (DiffKey × DPair)) (b : Bool) (k : DiffKey)
    (ns : List ProgramNotice) :
    alookup (tableExtend b k ns m) k = some (updPair b ((alookup m k).getD (([], []))) ns) := by
  induction m with
  | nil => simp [tableExtend, alookup]
  | cons kv rest ih =>
    obtain ⟨k', v⟩ := kv
    by_cases h : k' = k
    · subst h
      simp [tableExtend, alookup]
    · simp [tableExtend, alookup, h, ih]

theorem alookup_tableExtend_ne (m : List (DiffKey × DPair)) (b : Bool) (k k' : DiffKey)
    (ns : List ProgramNotice) (h : k' ≠ k) :
    alookup (tableExtend b k ns m) k' = alookup m k' := by
  induction m with
  | nil => simp [tableExtend, alookup, Ne.symm h]
  | cons kv rest ih =>
    obtain ⟨k0, v0⟩ := kv
    by_cases h0 : k0 = k
    · subst h0
      simp [tableExtend, alookup, Ne.symm h]
    · simp only [tableExtend, if_neg h0, alookup]
      by_cases h1 : k0 = k' <;> simp [h1, ih]

theorem lookupD_foldl_table_false (E : List (DiffKey × List ProgramNotice))
    (m₀ : List (DiffKey × DPair)) (k : DiffKey) :
    (alookup (E.foldl (fun acc kv => tableExtend false kv.1 kv.2 acc) m₀) k).getD (([], []))
      = (((alookup m₀ k).getD (([], []))).1 ++
          (E.filter (fun kv => decide (kv.1 = k))).flatMap Prod.snd,
         ((alookup m₀ k).getD (([], []))).2) := by
  induction E generalizing m₀ with
  | nil => simp
  | cons kv rest ih =>
    obtain ⟨k0, ns⟩ := kv
    rw [List.foldl_cons, ih]
    by_cases h : k0 = k
    · subst h
      rw [alookup_tableExtend_self]
      simp [updPair, List.append_assoc]
    · rw [alookup_tableExtend_ne _ _ _ _ _ (Ne.symm h)]
      simp [h]

theorem lookupD_foldl_table_true (E : List (DiffKey × List ProgramNotice))
    (m₀ : List (DiffKey × DPair)) (k : DiffKey) :
    (alookup (E.foldl (fun acc kv => tableExtend true kv.1 kv.2 acc) m₀) k).getD (([], []))
      = (((alookup m₀ k).getD (([], []))).1,
         ((alookup m₀ k).getD (([], []))).2 ++
          (E.filter (fun kv => decide (kv.1 = k))).flatMap Prod.snd) := by
  induction E generalizing m₀ with
  | nil => simp
  | cons kv rest ih =>
    obtain ⟨k0, ns⟩ := kv
    rw [List.foldl_cons, ih]
    by_cases h : k0 = k
    · subst h
      rw [alookup_tableExtend_self]
      simp [updPair, List.append_assoc]
    · rw [alookup_tableExtend_ne _ _ _ _ _ (Ne.symm h)]
      simp [h]

theorem isSome_foldl_table (b : Bool) (E : List (DiffKey × List ProgramNotice))
    (m₀ : List (DiffKey × DPair)) (k : DiffKey) :
    (alookup (E.foldl (fun acc kv => tableExtend b kv.1 kv.2 acc) m₀) k).isSome = true ↔
    (alookup m₀ k).isSome = true ∨ ∃ kv ∈ E, kv.1 = k := by
  induction E generalizing m₀ with
  | nil => simp
  | cons kv rest ih =>
    obtain ⟨k0, ns⟩ := kv
    rw [List.foldl_cons, ih]
    by_cases h : k0 = k
    · subst h
      rw [alookup_tableExtend_self]
      simp
    · rw [alookup_tableExtend_ne _ _ _ _ _ (Ne.symm h)]
      simp only [List.mem_cons]
      constructor
      · rintro (hs | ⟨x, hm, hk⟩)
        · exact Or.inl hs
        · exact Or.inr ⟨x, Or.inr hm, hk⟩
      · rintro (hs | ⟨x, hm | hm, hk⟩)
        · exact Or.inl hs
        · rw [hm] at hk
          exact absurd hk h
        · exact Or.inr ⟨x, hm, hk⟩

theorem keys_bucketExtend (m : List (DiffKey × List ProgramNotice)) (k : DiffKey)
    (ns : List ProgramNotice) :
    (bucketExtend k ns m).map Prod.fst =
      if k ∈ m.map Prod.fst then m.map Prod.fst else m.map Prod.fst ++ [k] := by
  induction m with
  | nil => simp [bucketExtend]
  | cons kv rest ih =>
    obtain ⟨k0, v0⟩ := kv
    by_cases h : k0 = k
    · subst h
      simp [bucketExtend]
    · simp only [bucketExtend, if_neg h, List.map_cons, ih, List.mem_cons]
      by_cases hm : k ∈ rest.map Prod.fst
      · simp [hm, h, Ne.symm h]
      · simp [hm, h, Ne.symm h]

theorem nodup_keys_bucketExtend (m : List (DiffKey × List ProgramNotice)) (k : DiffKey)
    (ns : List ProgramNotice) (h : (m.map Prod.fst).Nodup) :
    ((bucketExtend k ns m).map Prod.fst).Nodup := by
  rw [keys_bucketExtend]
  by_cases hm : k ∈ m.map Prod.fst
  · rw [if_pos hm]
    exact h
  · rw [if_neg hm]
    refine List.Nodup.append h (List.nodup_singleton k) ?_
    intro x hx hk
    rw [List.mem_singleton.mp hk] at hx
    exact hm hx

theorem nodup_keys_foldl_bucket (root : List String) (L : List ProgramNotice)
    (m₀ : List (DiffKey × List ProgramNotice)) (h : (m₀.map Prod.fst).Nodup) :
    ((L.foldl (fun m n => bucketExtend (noticeKey root n) n.for_compare m) m₀).map
      Prod.fst).Nodup := by
  induction L generalizing m₀ with
  | nil => exact h
  | cons n rest ih =>
    rw [List.foldl_cons]
    exact ih _ (nodup_keys_bucketExtend _ _ _ h)

theorem nodup_keys_diffSide (root : List String) (p : ProgramNotices) :
    ((diffSide root p).map Prod.fst).Nodup :=
  nodup_keys_foldl_bucket root _ [] List.nodup_nil

theorem filter_eq_nil_of_not_mem_keys (m : List (DiffKey × List ProgramNotice)) (k : DiffKey)
    (h : k ∉ m.map Prod.fst) : m.filter (fun kv => decide (kv.1 = k)) = [] := by
  induction m with
  | nil => rfl
  | cons kv rest ih =>
    obtain ⟨k0, v0⟩ := kv
    simp only [List.map_cons, List.mem_cons] at h
    push_neg at h
    rw [List.filter_cons]
    simp only [decide_eq_true_eq]
    rw [if_neg (Ne.symm h.1)]
    exact ih h.2

theorem filterflat_eq_lookupD (m : List (DiffKey × List ProgramNotice)) (k : DiffKey)
    (h : (m.map Prod.fst).Nodup) :
    (m.filter (fun kv => decide (kv.1 = k))).flatMap Prod.snd = (alookup m k).getD [] := by
  induction m with
  | nil => rfl
  | cons kv rest ih =>
    obtain ⟨k0, v0⟩ := kv
    simp only [List.map_cons, List.nodup_cons] at h
    by_cases hk : k0 = k
    · subst hk
      simp [List.filter_cons, filter_eq_nil_of_not_mem_keys rest k0 h.1, alookup]
    · simp [List.filter_cons, hk, ih h.2, alookup]

theorem diff_lookup_pair (root : List String) (left right : ProgramNotices) (k : DiffKey) :
    (alookup (left.diff root right).by_file_line k).getD (([], []))
      = ((left.iterNotices.filter (fun n => decide (noticeKey root n = k))).flatMap
           ProgramNotice.for_compare,
         (right.iterNotices.filter (fun n => decide (noticeKey root n = k))).flatMap
           ProgramNotice.for_compare) := by
  show (alookup ((diffSide root right).foldl (fun acc kv => tableExtend true kv.1 kv.2 acc)
      ((diffSide root left).foldl (fun acc kv => tableExtend false kv.1 kv.2 acc) [])) k).getD
        (([], [])) = _
  rw [lookupD_foldl_table_true, lookupD_foldl_table_false,
    filterflat_eq_lookupD _ _ (nodup_keys_diffSide root right),
    filterflat_eq_lookupD _ _ (nodup_keys_diffSide root left),
    lookupD_diffSide, lookupD_diffSide]
  simp [alookup]

theorem diff_lookup_isSome (root : List String) (left right : ProgramNotices) (k : DiffKey) :
    (alookup (left.diff root right).by_file_line k).isSome = true ↔
      (∃ n ∈ left.iterNotices, noticeKey root n = k)
      ∨ (∃ n ∈ right.iterNotices, noticeKey root n = k) := by
  have hL : (∃ kv ∈ diffSide root left, kv.1 = k) ↔
      ∃ n ∈ left.iterNotices, noticeKey root n = k := by
    rw [← alookup_isSome_iff, isSome_diffSide]
  have hR : (∃ kv ∈ diffSide root right, kv.1 = k) ↔
      ∃ n ∈ right.iterNotices, noticeKey root n = k := by
    rw [← alookup_isSome_iff, isSome_diffSide]
  show (alookup ((diffSide root right).foldl (fun acc kv => tableExtend true kv.1 kv.2 acc)
      ((diffSide root left).foldl (fun acc kv => tableExtend false kv.1 kv.2 acc) [])) k).isSome
        = true ↔ _
  rw [isSome_foldl_table, isSome_foldl_table, hL, hR]
  simp [alookup]

/-! ## C6 and C7: the diff table -/

/-- C6: for every root and pair of `ProgramNotices`, the diff table has an
entry at `(path, line)` exactly when some contained notice of either side
is bucketed there (path made relative to the root when the location falls
under it, absolute otherwise), and the entry's left and right buckets are
exactly the corresponding side's iterated notices at that key, expanded
through `for_compare` into one pseudo-notice per message line — a key
present on one side only carries an empty bucket for the other side. -/
theorem C6_diff_buckets (root : List String) (left right : ProgramNotices) (k : DiffKey) :
    ((alookup (left.diff root right).by_file_line k).isSome = true ↔
      (∃ n ∈ left.iterNotices, noticeKey root n = k)
      ∨ (∃ n ∈ right.iterNotices, noticeKey root n = k))
    ∧ (alookup (left.diff root right).by_file_line k).getD (([], []))
      = ((left.iterNotices.filter (fun n => decide (noticeKey root n = k))).flatMap
           ProgramNotice.for_compare,
         (right.iterNotices.filter (fun n => decide (noticeKey root n = k))).flatMap
           ProgramNotice.for_compare) :=
  ⟨diff_lookup_isSome root left right k, diff_lookup_pair root left right k⟩

/-- C7: diffing a `ProgramNotices` against itself yields a table in which,
at every `(path, line)` key, the left and right notice sequences are
identical. -/
theorem C7_diff_self_equal (root : List String) (A : ProgramNotices) (k : DiffKey) :
    ((alookup (A.diff root A).by_file_line k).getD (([], []))).1 =
    ((alookup (A.diff root A).by_file_line k).getD (([], []))).2 := by
  rw [diff_lookup_pair]
